import Mathlib

/-!
Verification of the barocompare calibration engine.

The numeric values of the TypeScript source (IEEE-754 doubles) are modelled
as real numbers; `Math.sqrt` is `Real.sqrt`, `x ** y` is `Real.rpow`,
JavaScript's `a || b` on numbers is `if a = 0 then b else a` (NaN inputs are
outside the model), and `Array.prototype.sort((a, b) => a - b)` is
`List.insertionSort (· ≤ ·)`. Each definition is translated from the source
file and line range named in its doc comment.
-/

noncomputable section

/-- ISA reference pressure p0 in Pa (src/fe/src/index.tsx, `ISA`). -/
def ISA_p0 : ℝ := 101325

/-- ISA reference temperature T0 in K (src/fe/src/index.tsx, `ISA`). -/
def ISA_t0 : ℝ := 288.15

/-- ISA tropospheric lapse rate L in K/m (src/fe/src/index.tsx, `ISA`). -/
def ISA_L : ℝ := 0.0065

/-- ISA gravitational acceleration g0 (src/fe/src/index.tsx, `ISA`). -/
def ISA_g0 : ℝ := 9.80665

/-- ISA universal gas constant R (src/fe/src/index.tsx, `ISA`). -/
def ISA_R : ℝ := 8.3144598

/-- ISA molar mass of air M (src/fe/src/index.tsx, `ISA`). -/
def ISA_M : ℝ := 0.0289644

/-- The barometric exponent n = g0*M/(R*L) (src/fe/src/index.tsx, `nExp`). -/
def nExp : ℝ := ISA_g0 * ISA_M / (ISA_R * ISA_L)

/-- Source: `pressureFromAltitudeISA` (src/fe/src/utils/baro-calibration.ts lines
37-41 and src/fe/src/index.tsx lines 336-342):
`p0 * (max (1 - L*h/t0) 1e-8) ** nExp`. -/
def pressureFromAltitudeISA (h p0 t0 L : ℝ) : ℝ :=
  let r1 := 1 - L * h / t0
  let safe := max r1 1e-8
  p0 * safe ^ nExp

/-- Source: `altitudeFromPressureISA` (src/fe/src/utils/baro-calibration.ts lines
43-46 and src/fe/src/index.tsx lines 344-348):
`(t0/L) * (1 - (max (p/p0) 1e-12) ** (1/nExp))`. -/
def altitudeFromPressureISA (p p0 t0 L : ℝ) : ℝ :=
  let r := max (p / p0) 1e-12
  (t0 / L) * (1 - r ^ (1 / nExp))

theorem nExp_pos : 0 < nExp := by
  unfold nExp ISA_g0 ISA_M ISA_R ISA_L
  norm_num

theorem nExp_le_six : nExp ≤ 6 := by
  unfold nExp ISA_g0 ISA_M ISA_R ISA_L
  rw [div_le_iff₀ (by norm_num)]
  norm_num

/-- C5: for every altitude h in [-500, 9000] m, with the default ISA
constants, neither the `max(ratio, 1e-8)` guard nor the `max(p/p0, 1e-12)`
guard engages, the round trip
`altitudeFromPressureISA (pressureFromAltitudeISA h)` equals h exactly in
the real model, and hence lands within 1e-6 m of h. -/
theorem isa_roundtrip (h : ℝ) (h1 : -500 ≤ h) (h2 : h ≤ 9000) :
    1e-8 < 1 - ISA_L * h / ISA_t0 ∧
    1e-12 < pressureFromAltitudeISA h ISA_p0 ISA_t0 ISA_L / ISA_p0 ∧
    altitudeFromPressureISA (pressureFromAltitudeISA h ISA_p0 ISA_t0 ISA_L)
      ISA_p0 ISA_t0 ISA_L = h ∧
    |altitudeFromPressureISA (pressureFromAltitudeISA h ISA_p0 ISA_t0 ISA_L)
      ISA_p0 ISA_t0 ISA_L - h| ≤ 1e-6 := by
  have hL : (0 : ℝ) < ISA_L := by unfold ISA_L; norm_num
  have ht0 : (0 : ℝ) < ISA_t0 := by unfold ISA_t0; norm_num
  have hp0 : (0 : ℝ) < ISA_p0 := by unfold ISA_p0; norm_num
  set r1 : ℝ := 1 - ISA_L * h / ISA_t0 with hr1
  have hlow : (1531 : ℝ) / 1921 ≤ r1 := by
    rw [hr1]
    unfold ISA_L ISA_t0
    have hb : (0.0065 : ℝ) * h / 288.15 ≤ 390 / 1921 := by
      rw [div_le_iff₀ (by norm_num : (0:ℝ) < 288.15)]
      nlinarith
    linarith
  have hr1pos : (0 : ℝ) < r1 := lt_of_lt_of_le (by norm_num) hlow
  have hguard1 : (1e-8 : ℝ) < r1 := lt_of_lt_of_le (by norm_num) hlow
  have hmax1 : max r1 (1e-8 : ℝ) = r1 := max_eq_left (le_of_lt hguard1)
  have hpress : pressureFromAltitudeISA h ISA_p0 ISA_t0 ISA_L = ISA_p0 * r1 ^ nExp := by
    simp only [pressureFromAltitudeISA]
    rw [← hr1, hmax1]
  have hdiv : pressureFromAltitudeISA h ISA_p0 ISA_t0 ISA_L / ISA_p0 = r1 ^ nExp := by
    rw [hpress, mul_div_cancel_left₀ _ (ne_of_gt hp0)]
  have hrn_pos : (0 : ℝ) < r1 ^ nExp := Real.rpow_pos_of_pos hr1pos nExp
  have hrn_low : (1e-12 : ℝ) < r1 ^ nExp := by
    have hb : ((1531 : ℝ) / 1921) ^ nExp ≤ r1 ^ nExp :=
      Real.rpow_le_rpow (by norm_num) hlow (le_of_lt nExp_pos)
    have hc : ((1531 : ℝ) / 1921) ^ (6 : ℝ) ≤ ((1531 : ℝ) / 1921) ^ nExp :=
      Real.rpow_le_rpow_of_exponent_ge (by norm_num) (by norm_num) nExp_le_six
    have hd : ((1531 : ℝ) / 1921) ^ (6 : ℝ) = ((1531 : ℝ) / 1921) ^ (6 : ℕ) := by
      rw [← Real.rpow_natCast ((1531 : ℝ) / 1921) 6]
      norm_num
    have he : (1e-12 : ℝ) < ((1531 : ℝ) / 1921) ^ (6 : ℕ) := by norm_num
    calc (1e-12 : ℝ) < ((1531 : ℝ) / 1921) ^ (6 : ℕ) := he
      _ = ((1531 : ℝ) / 1921) ^ (6 : ℝ) := hd.symm
      _ ≤ ((1531 : ℝ) / 1921) ^ nExp := hc
      _ ≤ r1 ^ nExp := hb
  have hmax2 : max (r1 ^ nExp) (1e-12 : ℝ) = r1 ^ nExp :=
    max_eq_left (le_of_lt hrn_low)
  have halt : altitudeFromPressureISA (pressureFromAltitudeISA h ISA_p0 ISA_t0 ISA_L)
      ISA_p0 ISA_t0 ISA_L = h := by
    simp only [altitudeFromPressureISA]
    rw [hdiv, hmax2, one_div, Real.rpow_rpow_inv (le_of_lt hr1pos) (ne_of_gt nExp_pos), hr1]
    field_simp
    ring
  refine ⟨hguard1, by rw [hdiv]; exact hrn_low, halt, ?_⟩
  rw [halt]
  simp only [sub_self, abs_zero]
  norm_num

/-- C5 witness: the round trip is exact at the concrete altitude h = 0. -/
theorem isa_roundtrip_witness :
    (-500 : ℝ) ≤ 0 ∧ (0 : ℝ) ≤ 9000 ∧
    altitudeFromPressureISA (pressureFromAltitudeISA 0 ISA_p0 ISA_t0 ISA_L)
      ISA_p0 ISA_t0 ISA_L = 0 :=
  ⟨by norm_num, by norm_num, (isa_roundtrip 0 (by norm_num) (by norm_num)).2.2.1⟩

/-- Source: `median` (src/fe/src/utils/baro-calibration.ts lines 49-54): 0 on the
empty list, otherwise the middle element of the ascending sort (mean of the
two middle elements for even length). -/
def median (v : List ℝ) : ℝ :=
  if v.length = 0 then 0
  else
    let arr := List.insertionSort (· ≤ ·) v
    let mid := arr.length / 2
    if arr.length % 2 = 1 then arr.getD mid 0
    else (arr.getD (mid - 1) 0 + arr.getD mid 0) / 2

/-- Source: `mad` (src/fe/src/utils/baro-calibration.ts lines 56-61): median
absolute deviation from the median, 0 on the empty list. -/
def mad (arr : List ℝ) : ℝ :=
  if arr.length = 0 then 0
  else median (arr.map fun x => |x - median arr|)

/-- Source: `huberWeights` (src/fe/src/utils/baro-calibration.ts lines 63-72):
scale `s = 1.4826 * mad(residuals) || (residuals.length ? rms : 1)`,
threshold `c = k * (s || 1)`, weight 1 for `|r| <= c` else `c/|r|`.
JavaScript `a || b` on numbers is modelled as `if a = 0 then b else a`. -/
def huberWeights (residuals : List ℝ) (k : ℝ) : List ℝ :=
  let m := 1.4826 * mad residuals
  let s := if m = 0 then
      (if residuals.length ≠ 0 then
        Real.sqrt ((residuals.map fun r => r * r).sum / (residuals.length : ℝ))
      else 1)
    else m
  let c := k * (if s = 0 then 1 else s)
  residuals.map fun r => if |r| ≤ c then 1 else c / |r|

/-- The effective weight vector of the regression loop: the supplied `w`,
or `Array(n).fill(1)` when absent. -/
def regWeights (x : List ℝ) (w : Option (List ℝ)) : List ℝ :=
  w.getD (List.replicate x.length 1)

/-- The (xi, yi, wi) triples the regression loop of
src/fe/src/utils/baro-calibration.ts lines 88-97 runs over. -/
def regTriples (x y : List ℝ) (w : Option (List ℝ)) : List (ℝ × ℝ × ℝ) :=
  x.zip (y.zip (regWeights x w))

/-- Accumulated `S` (sum of weights) of the regression loop. -/
def sumS (x y : List ℝ) (w : Option (List ℝ)) : ℝ :=
  ((regTriples x y w).map fun t => t.2.2).sum

/-- Accumulated `Sx` of the regression loop. -/
def sumSx (x y : List ℝ) (w : Option (List ℝ)) : ℝ :=
  ((regTriples x y w).map fun t => t.2.2 * t.1).sum

/-- Accumulated `Sy` of the regression loop. -/
def sumSy (x y : List ℝ) (w : Option (List ℝ)) : ℝ :=
  ((regTriples x y w).map fun t => t.2.2 * t.2.1).sum

/-- Accumulated `Sxx` of the regression loop. -/
def sumSxx (x y : List ℝ) (w : Option (List ℝ)) : ℝ :=
  ((regTriples x y w).map fun t => t.2.2 * t.1 * t.1).sum

/-- Accumulated `Sxy` of the regression loop. -/
def sumSxy (x y : List ℝ) (w : Option (List ℝ)) : ℝ :=
  ((regTriples x y w).map fun t => t.2.2 * t.1 * t.2.1).sum

/-- The normal-equation denominator `S*Sxx - Sx*Sx`. -/
def regDenom (x y : List ℝ) (w : Option (List ℝ)) : ℝ :=
  sumS x y w * sumSxx x y w - sumSx x y w * sumSx x y w

/-- Result record of the weighted linear regressions (`{a, b}`). -/
structure LinFit where
  a : ℝ
  b : ℝ

/-- Source: `weightedLinearRegression` of src/fe/src/utils/baro-calibration.ts
lines 75-106: closed-form weighted least squares for `y ~ a*x + b`; on
zero points returns `{a: 1, b: 0}`; when `|S*Sxx - Sx*Sx| < 1e-12` returns
slope 1 and `b = Sy / (S || 1)`. -/
def weightedLinearRegression (x y : List ℝ) (w : Option (List ℝ)) : LinFit :=
  if x.length = 0 then ⟨1, 0⟩
  else if |regDenom x y w| < 1e-12 then
    ⟨1, sumSy x y w / (if sumS x y w = 0 then 1 else sumS x y w)⟩
  else
    let a := (sumS x y w * sumSxy x y w - sumSx x y w * sumSy x y w) / regDenom x y w
    ⟨a, (sumSy x y w - a * sumSx x y w) / (if sumS x y w = 0 then 1 else sumS x y w)⟩

/-- Source: `weightedLinearRegression` of src/fe/src/index.tsx lines 386-418: the
same solver except that its near-singular branch returns
`b = (Sy - Sx) / (S || 1)` (source line 412, `(Sy - Number(Sx)) / (S || 1)`). -/
def weightedLinearRegressionIdx (x y : List ℝ) (w : Option (List ℝ)) : LinFit :=
  if x.length = 0 then ⟨1, 0⟩
  else if |regDenom x y w| < 1e-12 then
    ⟨1, (sumSy x y w - sumSx x y w) / (if sumS x y w = 0 then 1 else sumS x y w)⟩
  else
    let a := (sumS x y w * sumSxy x y w - sumSx x y w * sumSy x y w) / regDenom x y w
    ⟨a, (sumSy x y w - a * sumSx x y w) / (if sumS x y w = 0 then 1 else sumS x y w)⟩

/-- C3 counterexample: on x = [5], y = [3] (one point, so the denominator
is exactly 0 and the near-singular branch is taken), the index.tsx solver
returns intercept (Sy - Sx)/S = -2, not the weighted mean of y, Sy/S = 3. -/
theorem wlr_claim_counterexample :
    |regDenom [(5 : ℝ)] [(3 : ℝ)] none| < 1e-12 ∧
    sumSy [(5 : ℝ)] [(3 : ℝ)] none / sumS [(5 : ℝ)] [(3 : ℝ)] none = 3 ∧
    weightedLinearRegressionIdx [(5 : ℝ)] [(3 : ℝ)] none = ⟨1, -2⟩ ∧
    ((-2 : ℝ) ≠ 3) := by
  have hS : sumS [(5 : ℝ)] [(3 : ℝ)] none = 1 := by
    norm_num [sumS, regTriples, regWeights, List.replicate]
  have hSx : sumSx [(5 : ℝ)] [(3 : ℝ)] none = 5 := by
    norm_num [sumSx, regTriples, regWeights, List.replicate]
  have hSy : sumSy [(5 : ℝ)] [(3 : ℝ)] none = 3 := by
    norm_num [sumSy, regTriples, regWeights, List.replicate]
  have hSxx : sumSxx [(5 : ℝ)] [(3 : ℝ)] none = 25 := by
    norm_num [sumSxx, regTriples, regWeights, List.replicate]
  have hD : regDenom [(5 : ℝ)] [(3 : ℝ)] none = 0 := by
    rw [regDenom, hS, hSx, hSxx]; norm_num
  refine ⟨by rw [hD]; norm_num, by rw [hSy, hS]; norm_num, ?_, by norm_num⟩
  rw [weightedLinearRegressionIdx, if_neg (by norm_num), if_pos (by rw [hD]; norm_num),
    hSy, hSx, hS]
  norm_num

/-- C3 amended: whenever the point count is zero or the denominator
`S*Sxx - Sx*Sx` has absolute value below 1e-12, both solvers return slope 1
and neither divides by the denominator; the baro-calibration.ts solver's
intercept is the weighted mean of y, `Sy/(S || 1)`, while the index.tsx
solver's intercept is `(Sy - Sx)/(S || 1)`, the weighted mean of y - x
(a fixed-slope-1 least-squares intercept).  The zero-point case is the
`|denom| < 1e-12` case with all sums 0, where both intercepts are 0. -/
theorem wlr_degenerate (x y : List ℝ) (w : Option (List ℝ))
    (hd : |regDenom x y w| < 1e-12) :
    weightedLinearRegression x y w =
      ⟨1, sumSy x y w / (if sumS x y w = 0 then 1 else sumS x y w)⟩ ∧
    weightedLinearRegressionIdx x y w =
      ⟨1, (sumSy x y w - sumSx x y w) / (if sumS x y w = 0 then 1 else sumS x y w)⟩ := by
  by_cases hx : x.length = 0
  · have hxnil : x = [] := List.length_eq_zero.mp hx
    subst hxnil
    have htrip : regTriples [] y w = [] := by simp [regTriples]
    have hS : sumS [] y w = 0 := by simp [sumS, htrip]
    have hSx : sumSx [] y w = 0 := by simp [sumSx, htrip]
    have hSy : sumSy [] y w = 0 := by simp [sumSy, htrip]
    constructor
    · simp [weightedLinearRegression, hSy, hS]
    · simp [weightedLinearRegressionIdx, hSy, hSx, hS]
  · exact ⟨by rw [weightedLinearRegression, if_neg hx, if_pos hd],
      by rw [weightedLinearRegressionIdx, if_neg hx, if_pos hd]⟩

/-- C3 witness: the amended statement instantiated at x = [5], y = [3]. -/
theorem wlr_degenerate_witness :
    |regDenom [(5 : ℝ)] [(3 : ℝ)] none| < 1e-12 ∧
    (weightedLinearRegression [(5 : ℝ)] [(3 : ℝ)] none =
      ⟨1, sumSy [(5 : ℝ)] [(3 : ℝ)] none /
        (if sumS [(5 : ℝ)] [(3 : ℝ)] none = 0 then 1 else sumS [(5 : ℝ)] [(3 : ℝ)] none)⟩ ∧
    weightedLinearRegressionIdx [(5 : ℝ)] [(3 : ℝ)] none =
      ⟨1, (sumSy [(5 : ℝ)] [(3 : ℝ)] none - sumSx [(5 : ℝ)] [(3 : ℝ)] none) /
        (if sumS [(5 : ℝ)] [(3 : ℝ)] none = 0 then 1 else sumS [(5 : ℝ)] [(3 : ℝ)] none)⟩) := by
  have hd : |regDenom [(5 : ℝ)] [(3 : ℝ)] none| < 1e-12 := by
    norm_num [regDenom, sumS, sumSx, sumSxx, regTriples, regWeights, List.replicate]
  exact ⟨hd, wlr_degenerate [(5 : ℝ)] [(3 : ℝ)] none hd⟩

/-- Modelled from the spec's words for comparison with the code's
`huberWeights`: identical computation except that the threshold is
`c = k * max(s, 1)` as the spec sentence states, instead of the code's
`c = k * (s || 1)`. -/
def huberWeightsClaim (residuals : List ℝ) (k : ℝ) : List ℝ :=
  let m := 1.4826 * mad residuals
  let s := if m = 0 then
      (if residuals.length ≠ 0 then
        Real.sqrt ((residuals.map fun r => r * r).sum / (residuals.length : ℝ))
      else 1)
    else m
  let c := k * max s 1
  residuals.map fun r => if |r| ≤ c then 1 else c / |r|

theorem median_four_zeros_one : median [(0 : ℝ), 0, 0, 1] = 0 := by
  have hsorted : List.Sorted (· ≤ ·) [(0 : ℝ), 0, 0, 1] := by
    simp [List.sorted_cons]
  simp [median, hsorted.insertionSort_eq]

theorem mad_four_zeros_one : mad [(0 : ℝ), 0, 0, 1] = 0 := by
  rw [mad]
  simp only [List.length_cons, List.length_nil, List.map_cons, List.map_nil,
    median_four_zeros_one]
  norm_num [median_four_zeros_one]

/-- C4 counterexample: on residuals [0, 0, 0, 1] the MAD is 0 and the RMS
fallback gives s = 1/2, so the code's threshold is 1.345 * (1/2) = 0.6725
and the weight of the residual 1 is 0.6725, while the claimed
`c = k * max(s, 1)` = 1.345 would give it weight 1. -/
theorem huber_claim_counterexample :
    huberWeights [(0 : ℝ), 0, 0, 1] 1.345 = [1, 1, 1, 0.6725] ∧
    huberWeightsClaim [(0 : ℝ), 0, 0, 1] 1.345 = [1, 1, 1, 1] ∧
    huberWeights [(0 : ℝ), 0, 0, 1] 1.345 ≠ huberWeightsClaim [(0 : ℝ), 0, 0, 1] 1.345 := by
  have hs4 : Real.sqrt (4 : ℝ) = 2 := by
    rw [show (4 : ℝ) = 2 ^ 2 by norm_num, Real.sqrt_sq (by norm_num : (0 : ℝ) ≤ 2)]
  have hA : huberWeights [(0 : ℝ), 0, 0, 1] 1.345 = [1, 1, 1, 0.6725] := by
    simp only [huberWeights, mad_four_zeros_one, List.map_cons, List.map_nil, List.sum_cons,
      List.sum_nil, List.length_cons, List.length_nil]
    norm_num [hs4]
  have hB : huberWeightsClaim [(0 : ℝ), 0, 0, 1] 1.345 = [1, 1, 1, 1] := by
    simp only [huberWeightsClaim, mad_four_zeros_one, List.map_cons, List.map_nil,
      List.sum_cons, List.sum_nil, List.length_cons, List.length_nil]
    norm_num [hs4]
  refine ⟨hA, hB, ?_⟩
  rw [hA, hB]
  intro hEq
  have := List.head_eq_of_cons_eq (List.tail_eq_of_cons_eq
    (List.tail_eq_of_cons_eq (List.tail_eq_of_cons_eq hEq)))
  norm_num at this

/-- C4 amended: `huberWeights` computes the scale
`s = 1.4826 * mad(residuals)`, falling back to the RMS of the residuals
when that is zero and to 1 when the list is empty, uses the threshold
`c = k * s` when s is nonzero and `c = k` when s is zero (the code's
`k * (s || 1)`, not `k * max(s, 1)`), and gives residual r weight 1 when
`|r| <= c` and `c/|r|` otherwise. -/
theorem huberWeights_spec (residuals : List ℝ) (k : ℝ) :
    (huberWeights residuals k).length = residuals.length ∧
    ∀ i, i < residuals.length →
      (huberWeights residuals k).getD i 0 =
        (let m := 1.4826 * mad residuals
         let s := if m = 0 then
             (if residuals.length ≠ 0 then
               Real.sqrt ((residuals.map fun r => r * r).sum / (residuals.length : ℝ))
             else 1)
           else m
         let c := k * (if s = 0 then 1 else s)
         let r := residuals.getD i 0
         if |r| ≤ c then 1 else c / |r|) := by
  constructor
  · simp [huberWeights]
  · intro i hi
    simp only [huberWeights]
    rw [List.getD_eq_getElem?_getD, List.getElem?_map, List.getElem?_eq_getElem hi,
      List.getD_eq_getElem?_getD, List.getElem?_eq_getElem hi]
    rfl

/-- Sum `S3` of the quadratic normal equations (src/fe/src/index.tsx lines
441-456): `Σ wi * xi^3`. -/
def sumS3 (x y : List ℝ) (w : Option (List ℝ)) : ℝ :=
  ((regTriples x y w).map fun t => t.2.2 * (t.1 * t.1 * t.1)).sum

/-- Sum `S4` of the quadratic normal equations: `Σ wi * xi^4`. -/
def sumS4 (x y : List ℝ) (w : Option (List ℝ)) : ℝ :=
  ((regTriples x y w).map fun t => t.2.2 * (t.1 * t.1 * t.1 * t.1)).sum

/-- Sum `T2` of the quadratic normal equations: `Σ wi * xi^2 * yi`. -/
def sumT2 (x y : List ℝ) (w : Option (List ℝ)) : ℝ :=
  ((regTriples x y w).map fun t => t.2.2 * (t.1 * t.1) * t.2.1).sum

/-- One row of the augmented 3x3 system `[a b c | v]` handed to `solve3x3`
(src/fe/src/index.tsx lines 476-508 keeps the matrix and the right-hand
side in separate arrays; the augmented row is the same data). -/
structure Aug where
  a : ℝ
  b : ℝ
  c : ℝ
  v : ℝ

/-- The i = 0 partial-pivot swap of `solve3x3`: the pivot row is the one of
largest `|.a|` (the loop keeps the earlier row on ties) and is swapped into
position 0; the other two rows keep their relative positions. -/
def swapCol0 (m0 m1 m2 : Aug) : Aug × Aug × Aug :=
  if |m2.a| > (if |m1.a| > |m0.a| then |m1.a| else |m0.a|) then (m2, m1, m0)
  else if |m1.a| > |m0.a| then (m1, m0, m2) else (m0, m1, m2)

/-- The i = 0 elimination step of `solve3x3`: subtract `(s.a/s0.a) * s0`
from row s in columns a, b, c and the right-hand side. -/
def elimA (s0 s : Aug) : Aug :=
  let f := s.a / s0.a
  ⟨s.a - f * s0.a, s.b - f * s0.b, s.c - f * s0.c, s.v - f * s0.v⟩

/-- The i = 1 partial-pivot swap of `solve3x3` between rows 1 and 2. -/
def swapCol1 (t1 t2 : Aug) : Aug × Aug :=
  if |t2.b| > |t1.b| then (t2, t1) else (t1, t2)

/-- The i = 1 elimination step of `solve3x3`: subtract `(u.b/u1.b) * u1`
from row u in columns b, c and the right-hand side (column a untouched,
exactly as the source loop starts at column i = 1). -/
def elimB (u1 u : Aug) : Aug :=
  let g := u.b / u1.b
  ⟨u.a, u.b - g * u1.b, u.c - g * u1.c, u.v - g * u1.v⟩

/-- Source: `solve3x3` (src/fe/src/index.tsx lines 476-508): Gaussian elimination
with partial pivoting on the 3x3 system; `none` when a pivot has magnitude
below 1e-12, otherwise the back-substituted solution. -/
def solve3x3 (m0 m1 m2 : Aug) : Option (ℝ × ℝ × ℝ) :=
  let s := swapCol0 m0 m1 m2
  if |s.1.a| < 1e-12 then none
  else
    let t1 := elimA s.1 s.2.1
    let t2 := elimA s.1 s.2.2
    let u := swapCol1 t1 t2
    if |u.1.b| < 1e-12 then none
    else
      let w2 := elimB u.1 u.2
      if |w2.c| < 1e-12 then none
      else
        let x2 := w2.v / w2.c
        let x1 := (u.1.v - u.1.c * x2) / u.1.b
        let x0 := (s.1.v - s.1.b * x1 - s.1.c * x2) / s.1.a
        some (x0, x1, x2)

/-- Row 0 `[S4 S3 S2 | T2]` of the quadratic normal equations. -/
def quadRow0 (x y : List ℝ) (w : Option (List ℝ)) : Aug :=
  ⟨sumS4 x y w, sumS3 x y w, sumSxx x y w, sumT2 x y w⟩

/-- Row 1 `[S3 S2 S1 | T1]` of the quadratic normal equations. -/
def quadRow1 (x y : List ℝ) (w : Option (List ℝ)) : Aug :=
  ⟨sumS3 x y w, sumSxx x y w, sumSx x y w, sumSxy x y w⟩

/-- Row 2 `[S2 S1 S0 | T0]` of the quadratic normal equations. -/
def quadRow2 (x y : List ℝ) (w : Option (List ℝ)) : Aug :=
  ⟨sumSxx x y w, sumSx x y w, sumS x y w, sumSy x y w⟩

/-- Result record of the weighted quadratic regression (`{A, B, C}`). -/
structure QuadFit where
  A : ℝ
  B : ℝ
  C : ℝ

/-- Source: `weightedQuadraticRegression` (src/fe/src/index.tsx lines 421-474):
fewer than 3 points, or a singular system, falls back to the linear fit
with `A = 0`; otherwise the solution of the 3x3 normal equations. -/
def weightedQuadraticRegression (x y : List ℝ) (w : Option (List ℝ)) : QuadFit :=
  if x.length < 3 then
    ⟨0, (weightedLinearRegressionIdx x y w).a, (weightedLinearRegressionIdx x y w).b⟩
  else
    match solve3x3 (quadRow0 x y w) (quadRow1 x y w) (quadRow2 x y w) with
    | none => ⟨0, (weightedLinearRegressionIdx x y w).a, (weightedLinearRegressionIdx x y w).b⟩
    | some z => ⟨z.1, z.2.1, z.2.2⟩

/-- Row m of the system evaluated at a candidate solution z. -/
def rowEq (m : Aug) (z : ℝ × ℝ × ℝ) : Prop :=
  m.a * z.1 + m.b * z.2.1 + m.c * z.2.2 = m.v

theorem rowEq_of_elimA (s0 s : Aug) (z : ℝ × ℝ × ℝ)
    (h0 : rowEq s0 z) (h1 : rowEq (elimA s0 s) z) : rowEq s z := by
  simp only [rowEq, elimA] at h0 h1 ⊢
  linear_combination h1 + (s.a / s0.a) * h0

theorem rowEq_of_elimB (u1 u : Aug) (z : ℝ × ℝ × ℝ) (ha0 : u1.a = 0)
    (h0 : rowEq u1 z) (h1 : rowEq (elimB u1 u) z) : rowEq u z := by
  simp only [rowEq, elimB] at h0 h1 ⊢
  linear_combination h1 + (u.b / u1.b) * h0 - (u.b / u1.b) * z.1 * ha0

theorem elimA_a_zero (s0 s : Aug) (h : s0.a ≠ 0) : (elimA s0 s).a = 0 := by
  simp only [elimA]
  field_simp

theorem solve3x3_correct (m0 m1 m2 : Aug) (z : ℝ × ℝ × ℝ)
    (hs : solve3x3 m0 m1 m2 = some z) :
    rowEq m0 z ∧ rowEq m1 z ∧ rowEq m2 z := by
  obtain ⟨z0, z1, z2⟩ := z
  obtain ⟨s0, s1, s2, hswap⟩ : ∃ s0 s1 s2, swapCol0 m0 m1 m2 = (s0, s1, s2) :=
    ⟨_, _, _, rfl⟩
  have hperm : (s0 = m0 ∧ s1 = m1 ∧ s2 = m2) ∨ (s0 = m1 ∧ s1 = m0 ∧ s2 = m2) ∨
      (s0 = m2 ∧ s1 = m1 ∧ s2 = m0) := by
    unfold swapCol0 at hswap
    split_ifs at hswap <;>
      (injection hswap with e0 e'
       injection e' with e1 e2
       rw [← e0, ← e1, ← e2]
       tauto)
  suffices hrows : rowEq s0 (z0, z1, z2) ∧ rowEq s1 (z0, z1, z2) ∧ rowEq s2 (z0, z1, z2) by
    rcases hperm with ⟨e0, e1, e2⟩ | ⟨e0, e1, e2⟩ | ⟨e0, e1, e2⟩ <;>
      (rw [← e0, ← e1, ← e2]; tauto)
  simp only [solve3x3] at hs
  rw [hswap] at hs
  dsimp only at hs
  obtain ⟨u1, u2, hswap1⟩ :
      ∃ u1 u2, swapCol1 (elimA s0 s1) (elimA s0 s2) = (u1, u2) := ⟨_, _, rfl⟩
  have hperm1 : (u1 = elimA s0 s1 ∧ u2 = elimA s0 s2) ∨
      (u1 = elimA s0 s2 ∧ u2 = elimA s0 s1) := by
    unfold swapCol1 at hswap1
    split_ifs at hswap1
    · injection hswap1 with e0 e1
      exact Or.inr ⟨e0.symm, e1.symm⟩
    · injection hswap1 with e0 e1
      exact Or.inl ⟨e0.symm, e1.symm⟩
  rw [hswap1] at hs
  dsimp only at hs
  split_ifs at hs with hp0 hp1 hp2
  have ha : s0.a ≠ 0 := by
    intro h
    exact hp0 (by rw [h]; norm_num)
  have hb : u1.b ≠ 0 := by
    intro h
    exact hp1 (by rw [h]; norm_num)
  have hc : (elimB u1 u2).c ≠ 0 := by
    intro h
    exact hp2 (by rw [h]; norm_num)
  rw [Option.some.injEq, Prod.mk.injEq, Prod.mk.injEq] at hs
  obtain ⟨hx0, hx1, hx2⟩ := hs
  have hu1a : u1.a = 0 := by
    rcases hperm1 with ⟨e1, _⟩ | ⟨e1, _⟩ <;> rw [e1, elimA_a_zero _ _ ha]
  have hu2a : u2.a = 0 := by
    rcases hperm1 with ⟨_, e2⟩ | ⟨_, e2⟩ <;> rw [e2, elimA_a_zero _ _ ha]
  have hwb : (elimB u1 u2).b = 0 := by
    simp only [elimB]
    field_simp
  have hwa : (elimB u1 u2).a = u2.a := rfl
  have hw2 : rowEq (elimB u1 u2) (z0, z1, z2) := by
    simp only [rowEq]
    rw [hwb, hwa, hu2a, ← hx2]
    field_simp
  have hu1 : rowEq u1 (z0, z1, z2) := by
    simp only [rowEq]
    rw [hu1a, ← hx1, ← hx2]
    field_simp
    ring
  have hu2 : rowEq u2 (z0, z1, z2) := rowEq_of_elimB u1 u2 _ hu1a hu1 hw2
  have hs0 : rowEq s0 (z0, z1, z2) := by
    simp only [rowEq]
    rw [← hx0, ← hx1, ← hx2]
    field_simp
    ring
  have ht1 : rowEq (elimA s0 s1) (z0, z1, z2) := by
    rcases hperm1 with ⟨e1, _⟩ | ⟨_, e2⟩
    · rw [← e1]; exact hu1
    · rw [← e2]; exact hu2
  have ht2 : rowEq (elimA s0 s2) (z0, z1, z2) := by
    rcases hperm1 with ⟨_, e2⟩ | ⟨e1, _⟩
    · rw [← e2]; exact hu2
    · rw [← e1]; exact hu1
  exact ⟨hs0, rowEq_of_elimA s0 s1 _ hs0 ht1, rowEq_of_elimA s0 s2 _ hs0 ht2⟩

/-- C8: the weighted quadratic regression returns the A = 0 linear-fit
fallback when fewer than 3 points are supplied or when the Gaussian
elimination meets a pivot of magnitude below 1e-12 (`solve3x3 = none`);
when the elimination succeeds, it returns its solution, and that solution
satisfies all three normal equations. -/
theorem quad_regression_spec (x y : List ℝ) (w : Option (List ℝ)) :
    (x.length < 3 →
      weightedQuadraticRegression x y w =
        ⟨0, (weightedLinearRegressionIdx x y w).a, (weightedLinearRegressionIdx x y w).b⟩) ∧
    (solve3x3 (quadRow0 x y w) (quadRow1 x y w) (quadRow2 x y w) = none →
      weightedQuadraticRegression x y w =
        ⟨0, (weightedLinearRegressionIdx x y w).a, (weightedLinearRegressionIdx x y w).b⟩) ∧
    (∀ z, ¬ x.length < 3 →
      solve3x3 (quadRow0 x y w) (quadRow1 x y w) (quadRow2 x y w) = some z →
      weightedQuadraticRegression x y w = ⟨z.1, z.2.1, z.2.2⟩ ∧
      rowEq (quadRow0 x y w) z ∧ rowEq (quadRow1 x y w) z ∧ rowEq (quadRow2 x y w) z) := by
  refine ⟨?_, ?_, ?_⟩
  · intro h3
    rw [weightedQuadraticRegression, if_pos h3]
  · intro hnone
    by_cases h3 : x.length < 3
    · rw [weightedQuadraticRegression, if_pos h3]
    · rw [weightedQuadraticRegression, if_neg h3, hnone]
  · intro z h3 hsome
    refine ⟨by rw [weightedQuadraticRegression, if_neg h3, hsome], ?_⟩
    exact solve3x3_correct _ _ _ z hsome

/-- The five calibration methods of src/fe/src/index.tsx lines 302-307. -/
inductive CalibrationMethod where
  | offsetAlt1pt
  | linearAlt
  | quadraticAlt
  | offsetPress
  | linearPress
deriving DecidableEq

/-- The three reference modes of `BaroCalibrationOptions.referenceMode`. -/
inductive ReferenceMode where
  | avgGps
  | gps1
  | gps2
deriving DecidableEq

/-- Source: `BaroCalibrationOptions` (src/fe/src/index.tsx lines 309-321): every
field is optional; absent fields take the documented defaults at the point
of use.  `verticalSpeedLimit`'s `undefined` and `null` are merged into
`none` (the source reads it as `options?.verticalSpeedLimit ?? null`). -/
structure BaroCalibrationOptions where
  method : Option CalibrationMethod
  referenceMode : Option ReferenceMode
  useAllShared : Option Bool
  calibrationSeconds : Option ℕ
  verticalSpeedLimit : Option ℝ
  robust : Option Bool
  outlierSigma : Option ℝ
  p0 : Option ℝ
  t0 : Option ℝ
  lapseRate : Option ℝ

/-- Options value with every field absent (a plain `{}` options object). -/
def emptyOptions : BaroCalibrationOptions :=
  ⟨none, none, none, none, none, none, none, none, none, none⟩

/-- Source: `options?.method ?? 'linear-alt'`. -/
def methodOf (o : Option BaroCalibrationOptions) : CalibrationMethod :=
  (o.bind fun q => q.method).getD .linearAlt

/-- Source: `options?.robust ?? true`. -/
def robustOf (o : Option BaroCalibrationOptions) : Bool :=
  (o.bind fun q => q.robust).getD true

/-- Source: `options?.outlierSigma ?? 4`. -/
def sigmaOf (o : Option BaroCalibrationOptions) : ℝ :=
  (o.bind fun q => q.outlierSigma).getD 4

/-- Source: `options?.p0 ?? ISA.p0`. -/
def p0Of (o : Option BaroCalibrationOptions) : ℝ :=
  (o.bind fun q => q.p0).getD ISA_p0

/-- Source: `options?.t0 ?? ISA.t0`. -/
def t0Of (o : Option BaroCalibrationOptions) : ℝ :=
  (o.bind fun q => q.t0).getD ISA_t0

/-- Source: `options?.lapseRate ?? ISA.L`. -/
def lapseRateOf (o : Option BaroCalibrationOptions) : ℝ :=
  (o.bind fun q => q.lapseRate).getD ISA_L

/-- The options `o` with its `method` field replaced by `m` (used to state
that a property holds whichever method is selected). -/
def withMethod (o : Option BaroCalibrationOptions) (m : CalibrationMethod) :
    Option BaroCalibrationOptions :=
  some { o.getD emptyOptions with method := some m }

/-- The pair list of src/fe/src/index.tsx lines 531-533:
`hRaw.map((h, i) => ({h, href: hRef[i]})).filter(isFinite both)`.
`List.zip` truncates at the shorter list exactly as the `Number.isFinite`
filter drops the `undefined` entries a length mismatch produces; over ℝ
every value is finite, so no in-range pair is dropped. -/
def pairsOf (hRaw hRef : List ℝ) : List (ℝ × ℝ) :=
  hRaw.zip hRef

/-- The outlier-pruning block of `buildCalibrator`
(src/fe/src/index.tsx lines 544-553, identical to
src/fe/src/utils/baro-calibration.ts lines 143-152): one unweighted linear
fit in altitude space, residuals, robust scale
`1.4826 * mad(res) || rms(res) || 1`, threshold `outlierSigma * s`, and a
filter keeping the pairs with `|res| <= thr`. -/
def pruneOutliers (sigma : ℝ) (pairs : List (ℝ × ℝ)) : List (ℝ × ℝ) :=
  let lin0 := weightedLinearRegressionIdx (pairs.map fun p => p.1)
    (pairs.map fun p => p.2) none
  let res := pairs.map fun p => p.2 - (lin0.a * p.1 + lin0.b)
  let m := 1.4826 * mad res
  let s1 := if m = 0 then Real.sqrt ((res.map fun r => r * r).sum / (res.length : ℝ)) else m
  let s := if s1 = 0 then 1 else s1
  let thr := sigma * s
  ((pairs.zip res).filter fun pr => decide (|pr.2| ≤ thr)).map fun pr => pr.1

/-- The pair list `buildCalibrator` fits on: the finite pairs, pruned once
when at least 5 of them exist (src/fe/src/index.tsx lines 544-553). -/
def pairsAfterPrune (hRaw hRef : List ℝ) (o : Option BaroCalibrationOptions) :
    List (ℝ × ℝ) :=
  let pairs := pairsOf hRaw hRef
  if 5 ≤ pairs.length then pruneOutliers (sigmaOf o) pairs else pairs

/-- The IRLS loop of the linear fits (src/fe/src/index.tsx lines 578-589
and 644-656): 3 iterations re-weighting with `huberWeights` when `robust`,
a single unit-weight pass otherwise; the returned fit is the last one
computed (its weights come from the second iteration's residuals). -/
def irlsLinear (x y : List ℝ) (robust : Bool) : LinFit :=
  if robust then
    let f1 := weightedLinearRegressionIdx x y (some (List.replicate x.length 1))
    let e1 := (x.zip y).map fun p => p.2 - (f1.a * p.1 + f1.b)
    let f2 := weightedLinearRegressionIdx x y (some (huberWeights e1 1.345))
    let e2 := (x.zip y).map fun p => p.2 - (f2.a * p.1 + f2.b)
    weightedLinearRegressionIdx x y (some (huberWeights e2 1.345))
  else
    weightedLinearRegressionIdx x y (some (List.replicate x.length 1))

/-- Source: `meanOffsetAt` (src/fe/src/index.tsx lines 556-559): the mean of
`fn(h) - h` over the fitted pairs, with `diffs.length || 1` as divisor. -/
def meanOffsetAt (pairs : List (ℝ × ℝ)) (fn : ℝ → ℝ) : ℝ :=
  ((pairs.map fun p => fn p.1 - p.1).sum) /
    (if pairs.length = 0 then 1 else (pairs.length : ℝ))

/-- The pressure clamp `Math.min(Math.max(pc, 5000), 110000)` of the
pressure-domain evaluators. -/
def clampPress (pc : ℝ) : ℝ :=
  min (max pc 5000) 110000

/-- The fitted result of `buildCalibrator` (src/fe/src/index.tsx lines
510-515); the display-only `describe` closure is omitted. -/
structure Calibrator where
  fn : ℝ → ℝ
  pointsUsed : ℕ
  offsetAtMean : ℝ

/-- Source: `buildCalibrator` (src/fe/src/index.tsx lines 517-679): finite-pair
filter, identity fallback on no data, one outlier-pruning pass when at
least 5 pairs remain, then the method dispatch.  The source's trailing
`identity (fallback)` return is unreachable because the five methods are
matched exhaustively. -/
def buildCalibrator (hRaw hRef : List ℝ) (options : Option BaroCalibrationOptions) :
    Calibrator :=
  let robust := robustOf options
  let p0 := p0Of options
  let t0 := t0Of options
  let L := lapseRateOf options
  let pairs0 := pairsOf hRaw hRef
  if pairs0.length = 0 then
    ⟨fun h => h, 0, 0⟩
  else
    let pairs := pairsAfterPrune hRaw hRef options
    let n := pairs.length
    match methodOf options with
    | .offsetAlt1pt =>
      let off := median (pairs.map fun p => p.2 - p.1)
      let fn := fun h => h + off
      ⟨fn, n, meanOffsetAt pairs fn⟩
    | .linearAlt =>
      let fit := irlsLinear (pairs.map fun p => p.1) (pairs.map fun p => p.2) robust
      let fn := fun h => fit.a * h + fit.b
      ⟨fn, n, meanOffsetAt pairs fn⟩
    | .quadraticAlt =>
      let x := pairs.map fun p => p.1
      let y := pairs.map fun p => p.2
      let lin := weightedLinearRegressionIdx x y none
      let w := if robust then
          some (huberWeights ((x.zip y).map fun p => p.2 - (lin.a * p.1 + lin.b)) 1.345)
        else none
      let fit := weightedQuadraticRegression x y w
      let fn := fun h => fit.A * h * h + fit.B * h + fit.C
      ⟨fn, n, meanOffsetAt pairs fn⟩
    | .offsetPress =>
      let pRaw := pairs.map fun p => pressureFromAltitudeISA p.1 p0 t0 L
      let pRef := pairs.map fun p => pressureFromAltitudeISA p.2 p0 t0 L
      let b := median ((pRef.zip pRaw).map fun q => q.1 - q.2)
      let fn := fun h =>
        altitudeFromPressureISA (clampPress (pressureFromAltitudeISA h p0 t0 L + b)) p0 t0 L
      ⟨fn, n, meanOffsetAt pairs fn⟩
    | .linearPress =>
      let pRaw := pairs.map fun p => pressureFromAltitudeISA p.1 p0 t0 L
      let pRef := pairs.map fun p => pressureFromAltitudeISA p.2 p0 t0 L
      let fit := irlsLinear pRaw pRef robust
      let fn := fun h =>
        altitudeFromPressureISA (clampPress (fit.a * pressureFromAltitudeISA h p0 t0 L + fit.b))
          p0 t0 L
      ⟨fn, n, meanOffsetAt pairs fn⟩

theorem methodOf_withMethod (o : Option BaroCalibrationOptions) (m : CalibrationMethod) :
    methodOf (withMethod o m) = m := by
  cases o <;> rfl

theorem pairsAfterPrune_nil (hRaw hRef : List ℝ) (o : Option BaroCalibrationOptions)
    (h0 : (pairsOf hRaw hRef).length = 0) :
    pairsAfterPrune hRaw hRef o = pairsOf hRaw hRef := by
  rw [pairsAfterPrune, if_neg]
  omega

/-- C1: with method `offset-alt-1pt`, whenever at least one pair survives
the finiteness filter and the pruning step, the evaluator is
`h -> h + median(href_i - hraw_i)` over the surviving pairs, for every real
input h, and `pointsUsed` is the number of surviving pairs. -/
theorem offsetAlt1pt_spec (hRaw hRef : List ℝ) (o : Option BaroCalibrationOptions)
    (hm : methodOf o = CalibrationMethod.offsetAlt1pt)
    (hne : 0 < (pairsAfterPrune hRaw hRef o).length) :
    (∀ h, (buildCalibrator hRaw hRef o).fn h =
      h + median ((pairsAfterPrune hRaw hRef o).map fun p => p.2 - p.1)) ∧
    (buildCalibrator hRaw hRef o).pointsUsed = (pairsAfterPrune hRaw hRef o).length := by
  have hp0 : ¬ (pairsOf hRaw hRef).length = 0 := by
    intro h0
    rw [pairsAfterPrune_nil hRaw hRef o h0, h0] at hne
    exact Nat.lt_irrefl 0 hne
  constructor
  · intro h
    rw [buildCalibrator]
    simp only [if_neg hp0, hm]
  · rw [buildCalibrator]
    simp only [if_neg hp0, hm]

/-- C1 witness: three pairs (no pruning since 3 < 5), all offsets 10. -/
theorem offsetAlt1pt_spec_witness :
    methodOf (some { emptyOptions with method := some .offsetAlt1pt }) =
      CalibrationMethod.offsetAlt1pt ∧
    0 < (pairsAfterPrune [(0 : ℝ), 1, 2] [(10 : ℝ), 11, 12]
      (some { emptyOptions with method := some .offsetAlt1pt })).length ∧
    ((∀ h, (buildCalibrator [(0 : ℝ), 1, 2] [(10 : ℝ), 11, 12]
        (some { emptyOptions with method := some .offsetAlt1pt })).fn h =
      h + median ((pairsAfterPrune [(0 : ℝ), 1, 2] [(10 : ℝ), 11, 12]
        (some { emptyOptions with method := some .offsetAlt1pt })).map fun p => p.2 - p.1)) ∧
    (buildCalibrator [(0 : ℝ), 1, 2] [(10 : ℝ), 11, 12]
        (some { emptyOptions with method := some .offsetAlt1pt })).pointsUsed =
      (pairsAfterPrune [(0 : ℝ), 1, 2] [(10 : ℝ), 11, 12]
        (some { emptyOptions with method := some .offsetAlt1pt })).length) := by
  have hlen : (pairsAfterPrune [(0 : ℝ), 1, 2] [(10 : ℝ), 11, 12]
      (some { emptyOptions with method := some .offsetAlt1pt })).length = 3 := by
    rw [pairsAfterPrune, if_neg (by simp [pairsOf])]
    simp [pairsOf]
  refine ⟨rfl, by rw [hlen]; norm_num, ?_⟩
  exact offsetAlt1pt_spec _ _ _ rfl (by rw [hlen]; norm_num)

/-- C6: the pruning step runs exactly once, before any method-specific
fitting, in the altitude domain, whenever at least 5 finite pairs remain,
and not otherwise: for every method m the calibrator's `pointsUsed` equals
the length of `pruneOutliers` (the altitude-space recipe: residuals of one
unweighted linear fit, threshold `outlierSigma * (1.4826*mad || rms || 1)`)
applied to the finite pairs when they number at least 5, and the unpruned
pair count otherwise; the default `outlierSigma` is 4. -/
theorem outlier_pruning_spec (hRaw hRef : List ℝ) (o : Option BaroCalibrationOptions)
    (m : CalibrationMethod) :
    (buildCalibrator hRaw hRef (withMethod o m)).pointsUsed =
      (if 5 ≤ (pairsOf hRaw hRef).length
       then (pruneOutliers (sigmaOf (withMethod o m)) (pairsOf hRaw hRef)).length
       else (pairsOf hRaw hRef).length) ∧
    sigmaOf none = 4 := by
  refine ⟨?_, rfl⟩
  by_cases h0 : (pairsOf hRaw hRef).length = 0
  · rw [buildCalibrator]
    simp only [if_pos h0]
    rw [if_neg (by omega), h0]
  · rw [buildCalibrator]
    simp only [if_neg h0, methodOf_withMethod]
    have hpp : (pairsAfterPrune hRaw hRef (withMethod o m)).length =
        (if 5 ≤ (pairsOf hRaw hRef).length
         then (pruneOutliers (sigmaOf (withMethod o m)) (pairsOf hRaw hRef)).length
         else (pairsOf hRaw hRef).length) := by
      rw [pairsAfterPrune, apply_ite List.length]
    cases m <;> simpa using hpp

/-- One timestamped sample of a track (the fields of the parsed fix the
engine reads: src/unnamed/part_007 lines 26-44). -/
structure IGCFix where
  timestamp : ℤ
  gpsAltitude : Option ℝ
  pressureAltitude : Option ℝ

/-- A parsed track: the fix sequence (metadata is not read by the engine). -/
structure IGCFile where
  fixes : List IGCFix

/-- A JavaScript `Map<number, number>` keyed by integer second, modelled as
an insertion-ordered association list with unique keys. -/
abbrev SecMap := List (ℤ × ℝ)

/-- Source: `Map.set`: replace in place when the key exists, append otherwise
(JavaScript Map semantics: last write wins, insertion order kept). -/
def setSec : SecMap → ℤ → ℝ → SecMap
  | [], k, v => [(k, v)]
  | (k', v') :: rest, k, v =>
    if k' = k then (k, v) :: rest else (k', v') :: setSec rest k v

/-- Source: `Map.get`: the value at the key, if present. -/
def lookupSec : SecMap → ℤ → Option ℝ
  | [], _ => none
  | (k', v') :: rest, k => if k' = k then some v' else lookupSec rest k

/-- The four second-indexed maps (src/unnamed/part_007 lines 11-16). -/
structure DataMaps where
  file1BaroMap : SecMap
  file1GpsMap : SecMap
  file2BaroMap : SecMap
  file2GpsMap : SecMap

/-- The body of the `file1.fixes.forEach` loop of `createDataMaps`
(src/unnamed/part_007 lines 26-34): truncate the millisecond timestamp to
a second (`Math.floor(t/1000)` is flooring division) and insert each
present altitude into the corresponding map. -/
def insertFix1 (maps : DataMaps) (fix : IGCFix) : DataMaps :=
  let secondTimestamp := Int.fdiv fix.timestamp 1000
  let maps1 := match fix.pressureAltitude with
    | some pa => { maps with file1BaroMap := setSec maps.file1BaroMap secondTimestamp pa }
    | none => maps
  match fix.gpsAltitude with
  | some ga => { maps1 with file1GpsMap := setSec maps1.file1GpsMap secondTimestamp ga }
  | none => maps1

/-- The body of the `file2.fixes.forEach` loop of `createDataMaps`
(src/unnamed/part_007 lines 36-44). -/
def insertFix2 (maps : DataMaps) (fix : IGCFix) : DataMaps :=
  let secondTimestamp := Int.fdiv fix.timestamp 1000
  let maps1 := match fix.pressureAltitude with
    | some pa => { maps with file2BaroMap := setSec maps.file2BaroMap secondTimestamp pa }
    | none => maps
  match fix.gpsAltitude with
  | some ga => { maps1 with file2GpsMap := setSec maps1.file2GpsMap secondTimestamp ga }
  | none => maps1

/-- Source: `createDataMaps` (src/unnamed/part_007 lines 18-47). -/
def createDataMaps (file1 file2 : IGCFile) : DataMaps :=
  file2.fixes.foldl insertFix2 (file1.fixes.foldl insertFix1 ⟨[], [], [], []⟩)

/-- Source: `findSharedSeconds` (src/unnamed/part_007 lines 49-63): the keys of the
Track1-Baro map also present in the other three maps, sorted ascending
(`sort((a, b) => a - b)`). -/
def findSharedSeconds (maps : DataMaps) : List ℤ :=
  List.insertionSort (· ≤ ·)
    ((maps.file1BaroMap.map fun p => p.1).filter fun s =>
      (lookupSec maps.file1GpsMap s).isSome &&
      (lookupSec maps.file2BaroMap s).isSome &&
      (lookupSec maps.file2GpsMap s).isSome)

/-- One analytics block (mean / max-abs / 95th-percentile-abs). -/
structure Analytics where
  meanDifference : ℝ
  maxDifference : ℝ
  percentile95 : ℝ

/-- The shared statistics block of `calculateBaroAnalytics` and
`calculateGPSAnalytics` (src/unnamed/part_007 lines 109-132 and 151-174):
zero on no differences; otherwise mean, maximum absolute difference
(`Math.max(...)` over a nonempty list of nonnegative values, written as a
fold from 0), and the absolute difference at index
`Math.floor(length * 0.95)` of the ascending sort of absolute differences
(`19 * length / 20` in exact arithmetic), with `|| 0` as `getD 0`. -/
def analyticsOf (differences : List ℝ) : Analytics :=
  if differences.length = 0 then ⟨0, 0, 0⟩
  else
    ⟨differences.sum / (differences.length : ℝ),
     (differences.map fun d => |d|).foldr max 0,
     (List.insertionSort (· ≤ ·) (differences.map fun d => |d|)).getD
       (19 * differences.length / 20) 0⟩

/-- Source: `calculateBaroAnalytics` (src/unnamed/part_007 lines 90-133): the
calibrated Baro1 - Baro2 differences over the seconds where both baro maps
have a value. -/
def calculateBaroAnalytics (allSharedSeconds : List ℤ) (maps : DataMaps)
    (calibrate1 calibrate2 : ℝ → ℝ) : Analytics :=
  analyticsOf (allSharedSeconds.filterMap fun s =>
    match lookupSec maps.file1BaroMap s, lookupSec maps.file2BaroMap s with
    | some b1, some b2 => some (calibrate1 b1 - calibrate2 b2)
    | _, _ => none)

/-- Source: `calculateGPSAnalytics` (src/unnamed/part_007 lines 135-175): the raw
GPS1 - GPS2 differences over the seconds where both GPS maps have a value. -/
def calculateGPSAnalytics (allSharedSeconds : List ℤ) (gps1Map gps2Map : SecMap) :
    Analytics :=
  analyticsOf (allSharedSeconds.filterMap fun s =>
    match lookupSec gps1Map s, lookupSec gps2Map s with
    | some g1, some g2 => some (g1 - g2)
    | _, _ => none)

/-- Source: `calculateOffsets` (src/unnamed/part_007 lines 65-88): mean of
`avgGps - baro` per sensor over the calibration points.  The source's
non-null assertions `.get(s)!` are modelled as `getD 0`; the orchestrator
only calls this on shared seconds, where every lookup succeeds. -/
def calculateOffsets (calibrationPoints : List ℤ) (maps : DataMaps) : ℝ × ℝ :=
  let baro1Diffs := calibrationPoints.map fun s =>
    ((lookupSec maps.file1GpsMap s).getD 0 + (lookupSec maps.file2GpsMap s).getD 0) / 2 -
      (lookupSec maps.file1BaroMap s).getD 0
  let baro2Diffs := calibrationPoints.map fun s =>
    ((lookupSec maps.file1GpsMap s).getD 0 + (lookupSec maps.file2GpsMap s).getD 0) / 2 -
      (lookupSec maps.file2BaroMap s).getD 0
  (baro1Diffs.sum / (baro1Diffs.length : ℝ), baro2Diffs.sum / (baro2Diffs.length : ℝ))

/-- The orchestrator's result record (the fields of `CalibrationInfo` the
engine computes: src/unnamed/part_007 lines 342-348). -/
structure CalibrationInfo where
  baro1Offset : ℝ
  baro2Offset : ℝ
  pointsUsed : ℕ
  baroAnalytics : Analytics
  gpsAnalytics : Analytics

/-- The zero-valued degenerate result returned on empty overlap. -/
def zeroCalibrationInfo : CalibrationInfo :=
  ⟨0, 0, 0, ⟨0, 0, 0⟩, ⟨0, 0, 0⟩⟩

/-- The reference-altitude of one shared second (src/unnamed/part_007
lines 264-271): GPS1, GPS2 or their average, per `referenceMode`.  The
source precomputes these into a map over the shared seconds with `.get!`;
the function form is extensionally the same on every shared second. -/
def refAltAt (maps : DataMaps) (mode : ReferenceMode) (s : ℤ) : ℝ :=
  let g1 := (lookupSec maps.file1GpsMap s).getD 0
  let g2 := (lookupSec maps.file2GpsMap s).getD 0
  match mode with
  | .gps1 => g1
  | .gps2 => g2
  | .avgGps => (g1 + g2) / 2

/-- Source: `options?.referenceMode ?? 'avg-gps'`. -/
def referenceModeOf (o : Option BaroCalibrationOptions) : ReferenceMode :=
  (o.bind fun q => q.referenceMode).getD .avgGps

/-- Source: `options?.useAllShared ?? true`. -/
def useAllSharedOf (o : Option BaroCalibrationOptions) : Bool :=
  (o.bind fun q => q.useAllShared).getD true

/-- Source: `options?.calibrationSeconds ?? 60`. -/
def calibrationSecondsOf (o : Option BaroCalibrationOptions) : ℕ :=
  (o.bind fun q => q.calibrationSeconds).getD 60

/-- Source: `options?.verticalSpeedLimit ?? null`. -/
def vsLimitOf (o : Option BaroCalibrationOptions) : Option ℝ :=
  o.bind fun q => q.verticalSpeedLimit

/-- Source: `computeVs` (src/unnamed/part_007 lines 279-295): per-index vertical
speed of the reference altitude, forward difference at index 0, backward
difference at the last index, central difference elsewhere, with the
`|| 1` (endpoints) and `|| 2` (interior) fallbacks on a zero time step.
The source's out-of-bounds read `secs[1]` on a one-element window (which
makes the whole entry NaN in JavaScript) is modelled with `getD 0`; the
theorems about this function assume a window of at least 2 seconds. -/
def computeVs (refAlt : ℤ → ℝ) (secs : List ℤ) : List ℝ :=
  if secs.length = 0 then []
  else
    (List.range secs.length).map fun i =>
      if i = 0 then
        (refAlt (secs.getD 1 0) - refAlt (secs.getD 0 0)) /
          (if ((secs.getD 1 0 - secs.getD 0 0 : ℤ) : ℝ) = 0 then 1
           else ((secs.getD 1 0 - secs.getD 0 0 : ℤ) : ℝ))
      else if i = secs.length - 1 then
        (refAlt (secs.getD i 0) - refAlt (secs.getD (i - 1) 0)) /
          (if ((secs.getD i 0 - secs.getD (i - 1) 0 : ℤ) : ℝ) = 0 then 1
           else ((secs.getD i 0 - secs.getD (i - 1) 0 : ℤ) : ℝ))
      else
        (refAlt (secs.getD (i + 1) 0) - refAlt (secs.getD (i - 1) 0)) /
          (if ((secs.getD (i + 1) 0 - secs.getD (i - 1) 0 : ℤ) : ℝ) = 0 then 2
           else ((secs.getD (i + 1) 0 - secs.getD (i - 1) 0 : ℤ) : ℝ))

/-- Source: `filterByVs` (src/unnamed/part_007 lines 298-305): identity when the
limit is null, else keep the seconds whose `|vs|` is within the limit. -/
def filterByVs (vsLimit : Option ℝ) (secs : List ℤ) (vs : List ℝ) : List ℤ :=
  match vsLimit with
  | none => secs
  | some v => ((secs.zip vs).filter fun p => decide (|p.2| ≤ v)).map fun p => p.1

/-- The calibration window before vertical-speed filtering
(src/unnamed/part_007 lines 274-277): all shared seconds, or the first
`calibrationSeconds` of them. -/
def secondsForCalibOf (file1 file2 : IGCFile) (o : Option BaroCalibrationOptions) :
    List ℤ :=
  let shared := findSharedSeconds (createDataMaps file1 file2)
  if useAllSharedOf o then shared else shared.take (calibrationSecondsOf o)

/-- The calibration window after vertical-speed filtering
(src/unnamed/part_007 lines 297-307). -/
def calibSecondsOf (file1 file2 : IGCFile) (o : Option BaroCalibrationOptions) :
    List ℤ :=
  filterByVs (vsLimitOf o) (secondsForCalibOf file1 file2 o)
    (computeVs (refAltAt (createDataMaps file1 file2) (referenceModeOf o))
      (secondsForCalibOf file1 file2 o))

/-- Source: `buildPairs` (src/unnamed/part_007 lines 310-323): the raw/reference
pair arrays over the window seconds where the baro map has a value.  The
source also requires the reference-map lookup to succeed and both values
to be finite, both always true in this model on window seconds. -/
def buildPairs (baroMap : SecMap) (refAlt : ℤ → ℝ) (secs : List ℤ) :
    List ℝ × List ℝ :=
  let ps := secs.filterMap fun s =>
    match lookupSec baroMap s with
    | some hval => some (hval, refAlt s)
    | none => none
  (ps.map fun p => p.1, ps.map fun p => p.2)

/-- Source: `calculateBaroCalibrationAdvanced` (src/unnamed/part_007 lines
232-349). -/
def calculateBaroCalibrationAdvanced (file1 file2 : IGCFile)
    (options : Option BaroCalibrationOptions) : CalibrationInfo :=
  let maps := createDataMaps file1 file2
  let sharedSeconds := findSharedSeconds maps
  if sharedSeconds.length = 0 then zeroCalibrationInfo
  else
    let refAlt := refAltAt maps (referenceModeOf options)
    let calibSeconds := calibSecondsOf file1 file2 options
    let pairs1 := buildPairs maps.file1BaroMap refAlt calibSeconds
    let pairs2 := buildPairs maps.file2BaroMap refAlt calibSeconds
    let calibrator1 := buildCalibrator pairs1.1 pairs1.2 options
    let calibrator2 := buildCalibrator pairs2.1 pairs2.2 options
    { baro1Offset := calibrator1.offsetAtMean
      baro2Offset := calibrator2.offsetAtMean
      pointsUsed := min calibrator1.pointsUsed calibrator2.pointsUsed
      baroAnalytics := calculateBaroAnalytics sharedSeconds maps calibrator1.fn calibrator2.fn
      gpsAnalytics := calculateGPSAnalytics sharedSeconds maps.file1GpsMap maps.file2GpsMap }

/-- Source: `calculateBaroCalibration` (src/unnamed/part_007 lines 179-229): the
legacy offset-only path when no options are given, otherwise the advanced
path. -/
def calculateBaroCalibration (file1 file2 : IGCFile)
    (options : Option BaroCalibrationOptions) : CalibrationInfo :=
  match options with
  | none =>
    let maps := createDataMaps file1 file2
    let sharedSeconds := findSharedSeconds maps
    if sharedSeconds.length = 0 then zeroCalibrationInfo
    else
      let calibrationPoints := sharedSeconds.take 60
      let offs := calculateOffsets calibrationPoints maps
      { baro1Offset := offs.1
        baro2Offset := offs.2
        pointsUsed := calibrationPoints.length
        baroAnalytics := calculateBaroAnalytics sharedSeconds maps
          (fun h => h + offs.1) (fun h => h + offs.2)
        gpsAnalytics := calculateGPSAnalytics sharedSeconds maps.file1GpsMap maps.file2GpsMap }
  | some o => calculateBaroCalibrationAdvanced file1 file2 (some o)

theorem setSec_cons (k' : ℤ) (v' : ℝ) (rest : SecMap) (k : ℤ) (v : ℝ) :
    setSec ((k', v') :: rest) k v =
      if k' = k then (k, v) :: rest else (k', v') :: setSec rest k v := rfl

theorem mem_keys_setSec (m : SecMap) (k a : ℤ) (v : ℝ) :
    a ∈ (setSec m k v).map Prod.fst ↔ a ∈ m.map Prod.fst ∨ a = k := by
  induction m with
  | nil => simp [setSec]
  | cons p rest ih =>
    obtain ⟨k', v'⟩ := p
    by_cases h : k' = k
    · subst h
      rw [setSec_cons, if_pos rfl]
      simp only [List.map_cons, List.mem_cons]
      tauto
    · rw [setSec_cons, if_neg h]
      simp only [List.map_cons, List.mem_cons, ih]
      tauto

theorem nodupKeys_setSec (m : SecMap) (k : ℤ) (v : ℝ)
    (h : (m.map Prod.fst).Nodup) : ((setSec m k v).map Prod.fst).Nodup := by
  induction m with
  | nil => simp [setSec]
  | cons p rest ih =>
    obtain ⟨k', v'⟩ := p
    simp only [List.map_cons, List.nodup_cons] at h
    by_cases hk : k' = k
    · subst hk
      rw [setSec_cons, if_pos rfl]
      simp only [List.map_cons, List.nodup_cons]
      exact ⟨h.1, h.2⟩
    · rw [setSec_cons, if_neg hk]
      simp only [List.map_cons, List.nodup_cons]
      refine ⟨?_, ih h.2⟩
      rw [mem_keys_setSec]
      rintro (hmem | hEq)
      · exact h.1 hmem
      · exact hk hEq

theorem lookupSec_isSome_of_mem (m : SecMap) (a : ℤ)
    (h : a ∈ m.map Prod.fst) : (lookupSec m a).isSome = true := by
  induction m with
  | nil => simp at h
  | cons p rest ih =>
    obtain ⟨k', v'⟩ := p
    simp only [List.map_cons, List.mem_cons] at h
    by_cases hk : k' = a
    · simp [lookupSec, hk]
    · rcases h with h | h
      · exact absurd h.symm hk
      · simp [lookupSec, hk, ih h]

/-- The four maps all have duplicate-free key lists. -/
def MapsNodupKeys (maps : DataMaps) : Prop :=
  (maps.file1BaroMap.map Prod.fst).Nodup ∧ (maps.file1GpsMap.map Prod.fst).Nodup ∧
  (maps.file2BaroMap.map Prod.fst).Nodup ∧ (maps.file2GpsMap.map Prod.fst).Nodup

theorem mapsNodup_insertFix1 (maps : DataMaps) (fix : IGCFix)
    (h : MapsNodupKeys maps) : MapsNodupKeys (insertFix1 maps fix) := by
  obtain ⟨h1, h2, h3, h4⟩ := h
  rw [insertFix1]
  rcases fix with ⟨ts, g, pa⟩
  dsimp only
  cases pa <;> cases g <;>
    exact ⟨by first | exact h1 | exact nodupKeys_setSec _ _ _ h1,
           by first | exact h2 | exact nodupKeys_setSec _ _ _ h2, h3, h4⟩

theorem mapsNodup_insertFix2 (maps : DataMaps) (fix : IGCFix)
    (h : MapsNodupKeys maps) : MapsNodupKeys (insertFix2 maps fix) := by
  obtain ⟨h1, h2, h3, h4⟩ := h
  rw [insertFix2]
  rcases fix with ⟨ts, g, pa⟩
  dsimp only
  cases pa <;> cases g <;>
    exact ⟨h1, h2, by first | exact h3 | exact nodupKeys_setSec _ _ _ h3,
           by first | exact h4 | exact nodupKeys_setSec _ _ _ h4⟩

theorem mapsNodup_foldl1 (l : List IGCFix) (maps : DataMaps)
    (h : MapsNodupKeys maps) : MapsNodupKeys (l.foldl insertFix1 maps) := by
  induction l generalizing maps with
  | nil => exact h
  | cons f rest ih => exact ih _ (mapsNodup_insertFix1 _ _ h)

theorem mapsNodup_foldl2 (l : List IGCFix) (maps : DataMaps)
    (h : MapsNodupKeys maps) : MapsNodupKeys (l.foldl insertFix2 maps) := by
  induction l generalizing maps with
  | nil => exact h
  | cons f rest ih => exact ih _ (mapsNodup_insertFix2 _ _ h)

theorem createDataMaps_nodup (file1 file2 : IGCFile) :
    MapsNodupKeys (createDataMaps file1 file2) := by
  rw [createDataMaps]
  exact mapsNodup_foldl2 _ _
    (mapsNodup_foldl1 _ _ ⟨List.nodup_nil, List.nodup_nil, List.nodup_nil, List.nodup_nil⟩)

/-- C9: on maps built from any two tracks, `findSharedSeconds` is strictly
ascending with no duplicates (`Pairwise (<)`), every returned second is
present in all four maps, and the function is deterministic (equal results
on repeated invocation; in this pure model that is definitional). -/
theorem findSharedSeconds_spec (file1 file2 : IGCFile) :
    (findSharedSeconds (createDataMaps file1 file2)).Pairwise (· < ·) ∧
    (∀ s ∈ findSharedSeconds (createDataMaps file1 file2),
      (lookupSec (createDataMaps file1 file2).file1BaroMap s).isSome = true ∧
      (lookupSec (createDataMaps file1 file2).file1GpsMap s).isSome = true ∧
      (lookupSec (createDataMaps file1 file2).file2BaroMap s).isSome = true ∧
      (lookupSec (createDataMaps file1 file2).file2GpsMap s).isSome = true) ∧
    findSharedSeconds (createDataMaps file1 file2) =
      findSharedSeconds (createDataMaps file1 file2) := by
  have hnodup := createDataMaps_nodup file1 file2
  refine ⟨?_, ?_, rfl⟩
  · rw [findSharedSeconds]
    have hfil : (((createDataMaps file1 file2).file1BaroMap.map Prod.fst).filter fun s =>
        (lookupSec (createDataMaps file1 file2).file1GpsMap s).isSome &&
        (lookupSec (createDataMaps file1 file2).file2BaroMap s).isSome &&
        (lookupSec (createDataMaps file1 file2).file2GpsMap s).isSome).Nodup :=
      hnodup.1.filter _
    have hsorted := List.sorted_insertionSort (α := ℤ) (· ≤ ·)
      (((createDataMaps file1 file2).file1BaroMap.map Prod.fst).filter fun s =>
        (lookupSec (createDataMaps file1 file2).file1GpsMap s).isSome &&
        (lookupSec (createDataMaps file1 file2).file2BaroMap s).isSome &&
        (lookupSec (createDataMaps file1 file2).file2GpsMap s).isSome)
    have hnd := (List.perm_insertionSort (α := ℤ) (· ≤ ·) _).symm.nodup hfil
    exact hsorted.lt_of_le hnd
  · intro s hs
    rw [findSharedSeconds] at hs
    rw [List.mem_insertionSort] at hs
    obtain ⟨hmem, hcond⟩ := List.mem_filter.mp hs
    rw [Bool.and_eq_true, Bool.and_eq_true] at hcond
    exact ⟨lookupSec_isSome_of_mem _ _ hmem, hcond.1.1, hcond.1.2, hcond.2⟩

/-- C2: when the two tracks share no second (the shared-seconds list is
empty), both calibration entry points return the zero-valued result:
`pointsUsed = 0` and every analytics field of both the baro and the GPS
block equal to 0.  The functions are total, so no exception is possible. -/
theorem calibration_zero_overlap (file1 file2 : IGCFile)
    (o : Option BaroCalibrationOptions)
    (h : findSharedSeconds (createDataMaps file1 file2) = []) :
    calculateBaroCalibration file1 file2 o = zeroCalibrationInfo ∧
    calculateBaroCalibrationAdvanced file1 file2 o = zeroCalibrationInfo ∧
    zeroCalibrationInfo.pointsUsed = 0 ∧
    zeroCalibrationInfo.baroAnalytics = ⟨0, 0, 0⟩ ∧
    zeroCalibrationInfo.gpsAnalytics = ⟨0, 0, 0⟩ := by
  have hlen : (findSharedSeconds (createDataMaps file1 file2)).length = 0 := by
    rw [h]
    rfl
  have hadv : calculateBaroCalibrationAdvanced file1 file2 o = zeroCalibrationInfo := by
    rw [calculateBaroCalibrationAdvanced]
    simp only [if_pos hlen]
  refine ⟨?_, hadv, rfl, rfl, rfl⟩
  cases o with
  | none =>
    rw [calculateBaroCalibration]
    simp only [if_pos hlen]
  | some q => exact hadv

/-- C2 witness: two one-fix tracks, seconds 0 and 5000, no overlap. -/
theorem calibration_zero_overlap_witness :
    findSharedSeconds (createDataMaps ⟨[⟨0, some 100, some 200⟩]⟩
      ⟨[⟨5000000, some 101, some 201⟩]⟩) = [] ∧
    calculateBaroCalibration ⟨[⟨0, some 100, some 200⟩]⟩
      ⟨[⟨5000000, some 101, some 201⟩]⟩ none = zeroCalibrationInfo := by
  have e1 : Int.fdiv 0 1000 = 0 := by decide
  have e2 : Int.fdiv 5000000 1000 = 5000 := by decide
  have h : findSharedSeconds (createDataMaps ⟨[⟨0, some 100, some 200⟩]⟩
      ⟨[⟨5000000, some 101, some 201⟩]⟩) = [] := by
    rw [createDataMaps]
    simp only [List.foldl_cons, List.foldl_nil, insertFix1, insertFix2, e1, e2]
    simp [findSharedSeconds, setSec, lookupSec]
  exact ⟨h, (calibration_zero_overlap _ _ none h).1⟩

/-- C10: the GPS1-vs-GPS2 analytics block of the advanced calibration is
computed solely from the shared seconds and the two raw GPS maps, so two
invocations whose options agree on `verticalSpeedLimit` (in fact any two
option records at all) produce identical `gpsAnalytics`. -/
theorem gps_analytics_independent (file1 file2 : IGCFile)
    (o o' : BaroCalibrationOptions)
    (hvs : o.verticalSpeedLimit = o'.verticalSpeedLimit) :
    (calculateBaroCalibrationAdvanced file1 file2 (some o)).gpsAnalytics =
      (calculateBaroCalibrationAdvanced file1 file2 (some o')).gpsAnalytics := by
  clear hvs
  rw [calculateBaroCalibrationAdvanced, calculateBaroCalibrationAdvanced]
  by_cases hc : (findSharedSeconds (createDataMaps file1 file2)).length = 0
  · rw [if_pos hc, if_pos hc]
  · rw [if_neg hc, if_neg hc]

/-- C10 witness: two empty tracks, options differing in `method` and
`robust` but agreeing (as `none`) on `verticalSpeedLimit`. -/
theorem gps_analytics_independent_witness :
    ({ emptyOptions with method := some .offsetAlt1pt } :
      BaroCalibrationOptions).verticalSpeedLimit =
      ({ emptyOptions with robust := some false } :
        BaroCalibrationOptions).verticalSpeedLimit ∧
    (calculateBaroCalibrationAdvanced ⟨[]⟩ ⟨[]⟩
      (some { emptyOptions with method := some .offsetAlt1pt })).gpsAnalytics =
      (calculateBaroCalibrationAdvanced ⟨[]⟩ ⟨[]⟩
        (some { emptyOptions with robust := some false })).gpsAnalytics :=
  ⟨rfl, gps_analytics_independent ⟨[]⟩ ⟨[]⟩ _ _ rfl⟩

/-- C7: the orchestrator's calibration window is unchanged by the
vertical-speed step when `verticalSpeedLimit` is null, and otherwise keeps
exactly the window seconds whose `|vertical speed|` is within the limit,
where the vertical speeds come from `computeVs` on the reference altitude;
and on any window of at least 2 seconds `computeVs` is the central
difference with one-sided differences at the two endpoints (each with the
source's zero-time-step fallback divisor). -/
theorem vertical_speed_filter_spec (file1 file2 : IGCFile)
    (o : Option BaroCalibrationOptions) :
    (calibSecondsOf file1 file2 o =
      (match vsLimitOf o with
       | none => secondsForCalibOf file1 file2 o
       | some v =>
         (((secondsForCalibOf file1 file2 o).zip
            (computeVs (refAltAt (createDataMaps file1 file2) (referenceModeOf o))
              (secondsForCalibOf file1 file2 o))).filter fun p =>
            decide (|p.2| ≤ v)).map fun p => p.1)) ∧
    (∀ (refAlt : ℤ → ℝ) (secs : List ℤ), 2 ≤ secs.length →
      (computeVs refAlt secs).length = secs.length ∧
      (∀ i, i < secs.length →
        (computeVs refAlt secs).getD i 0 =
          (if i = 0 then
            (refAlt (secs.getD 1 0) - refAlt (secs.getD 0 0)) /
              (if ((secs.getD 1 0 - secs.getD 0 0 : ℤ) : ℝ) = 0 then 1
               else ((secs.getD 1 0 - secs.getD 0 0 : ℤ) : ℝ))
           else if i = secs.length - 1 then
            (refAlt (secs.getD i 0) - refAlt (secs.getD (i - 1) 0)) /
              (if ((secs.getD i 0 - secs.getD (i - 1) 0 : ℤ) : ℝ) = 0 then 1
               else ((secs.getD i 0 - secs.getD (i - 1) 0 : ℤ) : ℝ))
           else
            (refAlt (secs.getD (i + 1) 0) - refAlt (secs.getD (i - 1) 0)) /
              (if ((secs.getD (i + 1) 0 - secs.getD (i - 1) 0 : ℤ) : ℝ) = 0 then 2
               else ((secs.getD (i + 1) 0 - secs.getD (i - 1) 0 : ℤ) : ℝ))))) := by
  constructor
  · cases hv : vsLimitOf o with
    | none => simp [calibSecondsOf, filterByVs, hv]
    | some v => simp [calibSecondsOf, filterByVs, hv]
  · intro refAlt secs hlen
    have h0 : ¬ secs.length = 0 := by omega
    constructor
    · rw [computeVs, if_neg h0]
      simp
    · intro i hi
      rw [computeVs, if_neg h0]
      rw [List.getD_eq_getElem?_getD, List.getElem?_map, List.getElem?_range hi]
      simp

end
